import Mathlib

/-!
Verification development for the Document/Canvas State Engine of the
story-text-designer repository (an in-browser editor for Instagram-style
post/story pages built on fabric.js).

The definitions below are shallow embeddings of the functions in
`src/components/InstagramEditor.tsx`, `src/components/Canvas.tsx` and
`src/components/Toolbar.tsx`.  JavaScript numbers are modelled as exact
rationals (`ℚ`), fabric.js object collections as Lean lists, and the
asynchronous image-decode completions as explicit events over a world state.
-/

/-- `CanvasFormat` from `InstagramEditor.tsx`: `"post" | "story"`. -/
inductive CanvasFormat
  | post
  | story
deriving DecidableEq

/-- `Theme` from `InstagramEditor.tsx`. -/
inductive Theme
  | instagram
  | minimal
  | dark
  | ocean
  | sunset
  | forest
  | neon
  | pastel
  | royal
deriving DecidableEq

/-- `canvasDimensions` in `InstagramEditor.tsx`:
`canvasFormat === "post" ? {width: 1080, height: 1080} : {width: 1080, height: 1920}`. -/
def canvasDimensions : CanvasFormat → ℚ × ℚ
  | .post => (1080, 1080)
  | .story => (1080, 1920)

/-- `getThemeBackground` in `Canvas.tsx` (first revision, CSS/gradient strings). -/
def getThemeBackground : Theme → String
  | .minimal => "#ffffff"
  | .dark => "#1a1a1a"
  | .instagram => "linear-gradient(45deg, #833ab4, #fd1d1d, #fcb045)"
  | .ocean => "linear-gradient(45deg, #2E3192, #1BFFFF)"
  | .sunset => "linear-gradient(45deg, #ff7e5f, #feb47b)"
  | .forest => "linear-gradient(45deg, #134E5E, #71B280)"
  | .neon => "linear-gradient(45deg, #00f260, #0575e6)"
  | .pastel => "linear-gradient(45deg, #a1c4fd, #c2e9fb)"
  | .royal => "linear-gradient(45deg, #141E30, #243B55)"

/-- `getTextColor` in `Canvas.tsx`: `minimal`/`pastel` use dark text, else white. -/
def getTextColor : Theme → String
  | .minimal => "#333333"
  | .pastel => "#333333"
  | _ => "#ffffff"

/-- Display-size computation in `initializeCanvas` (`Canvas.tsx`):
`displayHeight = Math.min(600, height); displayWidth = displayHeight * (width / height)`. -/
def displaySize (width height : ℚ) : ℚ × ℚ :=
  let displayHeight := min 600 height
  (displayHeight * (width / height), displayHeight)

/-- Pixel size of the bitmap produced by `exportCanvas` (`InstagramEditor.tsx`):
`fabricCanvas.toDataURL({multiplier: canvasFormat === "post" ? 2 : 1.5})`,
where the fabric canvas was created at the display size for the format.
fabric's `toDataURL` renders at (canvas dimensions × multiplier). -/
def exportCanvas (format : CanvasFormat) : ℚ × ℚ :=
  let d := displaySize (canvasDimensions format).1 (canvasDimensions format).2
  let multiplier : ℚ := match format with
    | .post => 2
    | .story => 1.5
  (d.1 * multiplier, d.2 * multiplier)

/-- fabric `Textbox` with the fields the repository sets. -/
structure Textbox where
  text : String
  left : ℚ
  top : ℚ
  fontSize : ℚ
  fill : String
  fontFamily : String
  textAlign : String
  originX : String
  originY : String
  width : ℚ
deriving DecidableEq

/-- fabric `FabricImage` with the fields the repository sets
(`img.scale(scale)` sets the uniform scale factor). -/
structure FabricImage where
  width : ℚ
  height : ℚ
  scaleFactor : ℚ
  left : ℚ
  top : ℚ
  originX : String
  originY : String
deriving DecidableEq

/-- An element of the live scene graph. -/
inductive FabricObject
  | textbox (t : Textbox)
  | image (i : FabricImage)
deriving DecidableEq

/-- The observable state of a fabric canvas as the repository uses it:
canvas size, background, ordered object list (paint order, back to front)
and the active (selected) object. -/
structure FabricCanvasState where
  width : ℚ
  height : ℚ
  backgroundColor : String
  objects : List FabricObject
  activeObject : Option FabricObject
deriving DecidableEq

/-- The welcome `Textbox` built in `loadCanvasData` (`Canvas.tsx`) for pages
without persisted data. -/
def welcomeTextbox (theme : Theme) (displayWidth displayHeight : ℚ) : Textbox :=
  { text := "Tap to edit text"
    left := displayWidth / 2
    top := displayHeight / 2
    fontSize := 32
    fill := getTextColor theme
    fontFamily := "Inter"
    textAlign := "center"
    originX := "center"
    originY := "center"
    width := displayWidth * 0.8 }

/-- Errors of the core (spec §7 taxonomy). -/
inductive EditorError
  | corruptDocumentError
  | imageDecodeError
deriving DecidableEq

/-- A page's persisted graph (`page.canvasData`): either a well-formed
serialized object list or a malformed payload. -/
inductive PersistedData
  | graphData (objs : List FabricObject)
  | malformed
deriving DecidableEq

/-- Modelled from the spec: fabric.js `canvas.loadFromJSON` — the
Serialization Codec's `deserialize` of spec §4.2 — is external library code
not present under `src/`.  Per the spec it reconstructs the persisted
elements in order from well-formed data and fails (rejects/throws) when
required fields are absent or of the wrong kind. -/
def loadFromJSON : PersistedData → Except EditorError (List FabricObject)
  | .graphData objs => .ok objs
  | .malformed => .error .corruptDocumentError

/-- JavaScript `x || dflt` on numbers (`canvas.width || 500` in
`loadCanvasData`): falls back when the value is falsy (0). -/
def jsOr (x dflt : ℚ) : ℚ :=
  if x = 0 then dflt else x

/-- `loadCanvasData` in `Canvas.tsx` (lines 106-132).  If the page has
persisted `canvasData` it is handed to `loadFromJSON` with **no** catch, so
a deserialization failure propagates out (`.error`).  Otherwise the welcome
textbox is added and selected. -/
def loadCanvasData (canvas : FabricCanvasState) (theme : Theme)
    (canvasData : Option PersistedData) : Except EditorError FabricCanvasState :=
  match canvasData with
  | some d =>
    match loadFromJSON d with
    | .ok objs => .ok { canvas with objects := objs, activeObject := none }
    | .error e => .error e
  | none =>
    let displayWidth := jsOr canvas.width 500
    let displayHeight := jsOr canvas.height 500
    let wt := welcomeTextbox theme displayWidth displayHeight
    .ok { canvas with
          objects := canvas.objects ++ [.textbox wt]
          activeObject := some (.textbox wt) }

/-- `initializeCanvas` in `Canvas.tsx` (lines 66-103): creates a fresh fabric
canvas at the display size with the theme background, then runs
`loadCanvasData` on it. -/
def initializeCanvas (theme : Theme) (width height : ℚ)
    (canvasData : Option PersistedData) : Except EditorError FabricCanvasState :=
  let d := displaySize width height
  let canvas : FabricCanvasState :=
    { width := d.1, height := d.2, backgroundColor := getThemeBackground theme
      objects := [], activeObject := none }
  loadCanvasData canvas theme canvasData

/-- The scale computed in `addImage` (`Toolbar.tsx` lines 105-113):
`imgAspect > canvasAspect ? (canvas.width * 0.6) / img.width
                          : (canvas.height * 0.6) / img.height`. -/
def addImageScale (canvasWidth canvasHeight imgWidth imgHeight : ℚ) : ℚ :=
  if imgWidth / imgHeight > canvasWidth / canvasHeight then
    (canvasWidth * 0.6) / imgWidth
  else
    (canvasHeight * 0.6) / imgHeight

/-- The image object `addImage` builds on successful decode: scaled by
`addImageScale`, centered (`left: w/2, top: h/2`, center origins). -/
def addedImage (canvas : FabricCanvasState) (imgWidth imgHeight : ℚ) : FabricImage :=
  { width := imgWidth
    height := imgHeight
    scaleFactor := addImageScale canvas.width canvas.height imgWidth imgHeight
    left := canvas.width / 2
    top := canvas.height / 2
    originX := "center"
    originY := "center" }

/-- `addImage` in `Toolbar.tsx` (lines 90-137).  The asynchronous decode
outcome is passed in: `none` models the rejected promise (the `.catch`
branch, which only toasts an error), `some (w, h)` the decoded image's
natural size (the `.then` branch, which scales, centers, inserts and
selects the image). -/
def addImage (canvas : FabricCanvasState) (decoded : Option (ℚ × ℚ)) :
    FabricCanvasState × Option EditorError :=
  match decoded with
  | none => (canvas, some .imageDecodeError)
  | some (iw, ih) =>
    let img := addedImage canvas iw ih
    ({ canvas with
       objects := canvas.objects ++ [.image img]
       activeObject := some (.image img) }, none)

/-- `CanvasPage` from `InstagramEditor.tsx`. -/
structure CanvasPage where
  id : String
  format : CanvasFormat
  theme : Theme
  canvasData : Option PersistedData
  name : String
deriving DecidableEq

/-- `Project` from `InstagramEditor.tsx` (pages plus metadata). -/
structure Project where
  id : String
  name : String
  format : CanvasFormat
  theme : Theme
  pages : List CanvasPage
deriving DecidableEq

/-- `addNewPage` in `InstagramEditor.tsx`: appends the page and moves the
current page index to the new last page. -/
def addNewPage (p : Project) (newPage : CanvasPage) : Project × ℕ :=
  let updated := { p with pages := p.pages ++ [newPage] }
  (updated, updated.pages.length - 1)

/-- `deleteCurrentPage` in `InstagramEditor.tsx` (lines 116-132): no-op when
at most one page remains; otherwise removes the page at `currentPageIndex`
(`filter((_, index) => index !== currentPageIndex)`) and clamps the index to
`Math.min(currentPageIndex, updatedPages.length - 1)`. -/
def deleteCurrentPage (p : Project) (currentPageIndex : ℕ) : Project × ℕ :=
  if p.pages.length ≤ 1 then (p, currentPageIndex)
  else
    let updatedPages := (p.pages.enum.filter fun q => q.1 != currentPageIndex).map fun q => q.2
    ({ p with pages := updatedPages }, min currentPageIndex (updatedPages.length - 1))

/-- Page-list operations a user can perform on a project. -/
inductive EditorOp
  | addPage (newPage : CanvasPage)
  | deletePage
deriving DecidableEq

/-- One editor operation applied to (project, currentPageIndex). -/
def applyOp (s : Project × ℕ) : EditorOp → Project × ℕ
  | .addPage newPage => addNewPage s.1 newPage
  | .deletePage => deleteCurrentPage s.1 s.2

/-- A sequence of page operations. -/
def runOps (s : Project × ℕ) (ops : List EditorOp) : Project × ℕ :=
  ops.foldl applyOp s

/-- fabric `canvas.moveObjectTo(object, index)`: removes the object from the
stack and splices it back at `index` (splice clamps the index to the array
length). -/
def moveObjectTo {α : Type} [DecidableEq α] (l : List α) (obj : α) (index : ℕ) : List α :=
  let l' := l.erase obj
  l'.insertIdx (min index l'.length) obj

/-- The fabric active object handed to the z-order helpers: either a single
object or a multi-selection holding a list of objects. -/
inductive ActiveSelection (α : Type)
  | single (obj : α)
  | multi (objs : List α)
deriving DecidableEq

/-- `getSelectedObjects` in `Toolbar.tsx` (lines 205-214): a multi-selection
contributes its object list, a single object contributes `[active]`. -/
def getSelectedObjects {α : Type} : ActiveSelection α → List α
  | .single obj => [obj]
  | .multi objs => objs

/-- `bringToFront` in `Toolbar.tsx` (lines 216-230): with `maxIndex`
computed once, the i-th selected object is moved to
`Math.max(0, maxIndex - i)` (ℕ subtraction models the clamp at 0). -/
def bringToFront {α : Type} [DecidableEq α] (l sel : List α) : List α :=
  let maxIndex := l.length - 1
  sel.enum.foldl (fun acc q => moveObjectTo acc q.2 (maxIndex - q.1)) l

/-- `sendToBack` in `Toolbar.tsx` (lines 232-244): the i-th selected object
is moved to index `i`. -/
def sendToBack {α : Type} [DecidableEq α] (l sel : List α) : List α :=
  sel.enum.foldl (fun acc q => moveObjectTo acc q.2 q.1) l

/-- `bringForward` in `Toolbar.tsx` (lines 246-261): each selected object is
moved from its current index `idx` to `Math.min(idx + 1, length - 1)`
(skipped when not found, `idx === -1`). -/
def bringForward {α : Type} [DecidableEq α] (l sel : List α) : List α :=
  sel.foldl
    (fun acc obj =>
      if obj ∈ acc then
        moveObjectTo acc obj (min (acc.indexOf obj + 1) (acc.length - 1))
      else acc)
    l

/-- `sendBackward` in `Toolbar.tsx` (lines 263-278): each selected object is
moved from its current index `idx` to `Math.max(idx - 1, 0)` (ℕ subtraction
models the clamp at 0). -/
def sendBackward {α : Type} [DecidableEq α] (l sel : List α) : List α :=
  sel.foldl
    (fun acc obj =>
      if obj ∈ acc then moveObjectTo acc obj (acc.indexOf obj - 1) else acc)
    l

/-- A pending asynchronous image decode: the `.then` closure of
`FabricImage.fromURL` in `addImage` captured the canvas instance that was
current when the decode was issued (`target`), together with the image it
will insert on completion. -/
structure PendingDecode where
  target : ℕ
  img : FabricObject
deriving DecidableEq

/-- World state for the renderer lifecycle: canvas instances are identified
by generation numbers (`next` is the next fresh one), each has an object
list; `active` is the generation currently mounted, `disposed` marks
generations whose `dispose()` ran, `pending` the in-flight decodes. -/
structure RendererWorld where
  graphObjects : ℕ → List FabricObject
  disposed : ℕ → Bool
  active : Option ℕ
  next : ℕ
  pending : List PendingDecode

/-- Lifecycle events: `activate` mounts a fresh canvas (the cleanup effect in
`Canvas.tsx` plus re-initialization always constructs a new fabric canvas —
generation numbers are never reused); `dispose` is the cleanup effect
(`fabricCanvasRef.current.dispose()`); `issueAddImage` starts a decode whose
closure captures the currently active canvas; `completeDecode` is the decode
promise resolving: the closure runs `canvas.add(img)` on the canvas instance
it captured, whichever generation that is. -/
inductive RendererEvent
  | activate
  | dispose
  | issueAddImage (img : FabricObject)
  | completeDecode (p : PendingDecode)

/-- Small-step semantics of the lifecycle events. -/
def stepRenderer (w : RendererWorld) : RendererEvent → RendererWorld
  | .activate =>
    { w with
      graphObjects := fun i => if i = w.next then [] else w.graphObjects i
      active := some w.next
      next := w.next + 1 }
  | .dispose =>
    match w.active with
    | some a => { w with disposed := fun i => if i = a then true else w.disposed i, active := none }
    | none => w
  | .issueAddImage img =>
    match w.active with
    | some a => { w with pending := ⟨a, img⟩ :: w.pending }
    | none => w
  | .completeDecode p =>
    if p ∈ w.pending then
      { w with
        graphObjects := fun i =>
          if i = p.target then w.graphObjects p.target ++ [p.img] else w.graphObjects i
        pending := w.pending.erase p }
    else w

/-- Run a sequence of lifecycle events (an interleaving). -/
def runRenderer (w : RendererWorld) (es : List RendererEvent) : RendererWorld :=
  es.foldl stepRenderer w

/-- The initial world: no canvas instances, nothing pending. -/
def initWorld : RendererWorld :=
  { graphObjects := fun _ => [], disposed := fun _ => false, active := none
    next := 0, pending := [] }

/-- Well-formedness of a renderer world: the active generation (if any) is
allocated and not disposed, and unallocated generations are not disposed. -/
structure RendererWF (w : RendererWorld) : Prop where
  active_lt : ∀ a, w.active = some a → a < w.next
  active_live : ∀ a, w.active = some a → w.disposed a = false
  fresh_clean : ∀ i, w.next ≤ i → w.disposed i = false

/-- Concrete demo image for witnesses. -/
def demoImg : FabricObject :=
  .image { width := 100, height := 100, scaleFactor := 1, left := 300, top := 300
           originX := "center", originY := "center" }

/-- A concrete world: one canvas (generation 0) was activated, an image
decode was issued against it, and it was then disposed. -/
def w0 : RendererWorld :=
  { graphObjects := fun i => if i = 0 then [] else []
    disposed := fun i => if i = 0 then true else false
    active := none
    next := 1
    pending := [⟨0, demoImg⟩] }

/-- A concrete story-format display canvas (337.5 × 600), as
`initializeCanvas` builds for the story format. -/
def storyCanvas : FabricCanvasState :=
  { width := 675 / 2, height := 600
    backgroundColor := getThemeBackground .instagram
    objects := [], activeObject := none }

/-- A concrete post-format display canvas (600 × 600). -/
def postCanvas : FabricCanvasState :=
  { width := 600, height := 600
    backgroundColor := getThemeBackground .instagram
    objects := [], activeObject := none }

/-- A concrete page with no persisted data. -/
def demoPage : CanvasPage :=
  { id := "1", format := .post, theme := .instagram, canvasData := none, name := "Page 1" }

/-- A concrete one-page project. -/
def demoProject : Project :=
  { id := "p1", name := "Project 1", format := .post, theme := .instagram
    pages := [demoPage] }

/-- A concrete two-page project. -/
def demoProject2 : Project :=
  { id := "p2", name := "Project 2", format := .post, theme := .instagram
    pages := [demoPage, { demoPage with id := "2", name := "Page 2" }] }

/-! ## Theorems -/

/-- Claim C2 counterexample: exporting a post at multiplier 2 yields a
1200×1200 bitmap (display size 600×600 times 2), not the claimed 2160×2160;
the story export at 1.5 yields 506.25×900, not 1620×2880. -/
theorem claim_C2_counterexample :
    exportCanvas .post = (1200, 1200) ∧ exportCanvas .post ≠ ((2160 : ℚ), (2160 : ℚ)) ∧
    exportCanvas .story = (2025 / 4, 900) ∧ exportCanvas .story ≠ ((1620 : ℚ), (2880 : ℚ)) := by
  refine ⟨?_, ?_, ?_, ?_⟩ <;>
    simp only [exportCanvas, displaySize, canvasDimensions, Prod.mk.injEq, ne_eq] <;>
    norm_num

/-- Claim C2 amended: the export resolution is the interactive display size
(height clamped to 600, width by aspect) times the format's multiplier —
post at 2 gives 1200×1200 and story at 1.5 gives 506.25×900 — so it is not
independent of the display size. -/
theorem claim_C2_amended :
    exportCanvas .post =
      ((displaySize (canvasDimensions .post).1 (canvasDimensions .post).2).1 * 2,
       (displaySize (canvasDimensions .post).1 (canvasDimensions .post).2).2 * 2) ∧
    exportCanvas .story =
      ((displaySize (canvasDimensions .story).1 (canvasDimensions .story).2).1 * 1.5,
       (displaySize (canvasDimensions .story).1 (canvasDimensions .story).2).2 * 1.5) ∧
    exportCanvas .post = (1200, 1200) ∧ exportCanvas .story = (2025 / 4, 900) := by
  refine ⟨rfl, rfl, ?_, ?_⟩ <;>
    simp only [exportCanvas, displaySize, canvasDimensions, Prod.mk.injEq] <;> norm_num

/-- Claim C8: when the image decode fails, `addImage` reports
`imageDecodeError` and leaves the graph completely unchanged — same canvas
size, element list, paint order and selection. -/
theorem claim_C8_decode_error_no_mutation (canvas : FabricCanvasState) :
    (addImage canvas none).1 = canvas ∧
    (addImage canvas none).1.objects = canvas.objects ∧
    (addImage canvas none).1.activeObject = canvas.activeObject ∧
    (addImage canvas none).2 = some .imageDecodeError :=
  ⟨rfl, rfl, rfl, rfl⟩

/-- Claim C3 counterexample: activating a page whose persisted graph is
malformed does **not** fall back to placeholder content — `loadCanvasData`
has no catch around `loadFromJSON`, so the deserialization failure escapes
the activation as an error, and the placeholder result is not produced. -/
theorem claim_C3_counterexample :
    loadCanvasData postCanvas .instagram (some .malformed) =
      .error .corruptDocumentError ∧
    loadCanvasData postCanvas .instagram (some .malformed) ≠
      .ok { postCanvas with
            objects := postCanvas.objects ++ [.textbox (welcomeTextbox .instagram 600 600)]
            activeObject := some (.textbox (welcomeTextbox .instagram 600 600)) } :=
  ⟨rfl, fun h => Except.noConfusion h⟩

/-- Claim C3 amended: activation falls back to the placeholder only when the
page has no persisted graph at all; a malformed persisted graph makes the
deserialization failure propagate uncaught out of the page activation (no
placeholder fallback), while a well-formed one hydrates to exactly its
content.  Each page is hydrated from its own `canvasData` alone, so one
page's corruption cannot alter what another page activates to. -/
theorem claim_C3_amended (canvas : FabricCanvasState) (theme : Theme) :
    loadCanvasData canvas theme (some .malformed) = .error .corruptDocumentError ∧
    (∀ objs, loadCanvasData canvas theme (some (.graphData objs)) =
      .ok { canvas with objects := objs, activeObject := none }) ∧
    (∀ wt, wt = welcomeTextbox theme (jsOr canvas.width 500) (jsOr canvas.height 500) →
      loadCanvasData canvas theme none =
        .ok { canvas with
              objects := canvas.objects ++ [.textbox wt]
              activeObject := some (.textbox wt) }) :=
  ⟨rfl, fun _ => rfl, fun _ h => by rw [h]; rfl⟩

/-- Claim C3 amended witness. -/
theorem claim_C3_amended_witness :
    loadCanvasData postCanvas .minimal (some (.graphData [demoImg])) =
      .ok { postCanvas with objects := [demoImg], activeObject := none } ∧
    welcomeTextbox .minimal 600 600 = welcomeTextbox .minimal (jsOr postCanvas.width 500) (jsOr postCanvas.height 500) ∧
    loadCanvasData postCanvas .minimal none =
      .ok { postCanvas with
            objects := postCanvas.objects ++ [.textbox (welcomeTextbox .minimal 600 600)]
            activeObject := some (.textbox (welcomeTextbox .minimal 600 600)) } :=
  ⟨(claim_C3_amended postCanvas .minimal).2.1 [demoImg],
   by norm_num [jsOr, postCanvas],
   (claim_C3_amended postCanvas .minimal).2.2 _ (by norm_num [jsOr, postCanvas])⟩

/-- Helper: indices in `enumFrom n l` are all ≥ n, so filtering out a
smaller index removes nothing. -/
theorem enumFrom_filter_ne_of_lt {β : Type} (l : List β) :
    ∀ (n i : ℕ), i < n →
      (List.enumFrom n l).filter (fun q => q.1 != i) = List.enumFrom n l := by
  induction l with
  | nil => intro n i _; rfl
  | cons a l ih =>
    intro n i h
    rw [List.enumFrom_cons, List.filter_cons]
    have hne : (n != i) = true := by simp only [bne_iff_ne, ne_eq]; omega
    rw [if_pos hne, ih (n + 1) i (by omega)]

/-- Helper: filtering one index out of `enumFrom n l` removes at most one
element. -/
theorem length_enumFrom_filter_ge {β : Type} (l : List β) :
    ∀ (n i : ℕ),
      l.length - 1 ≤ ((List.enumFrom n l).filter (fun q => q.1 != i)).length := by
  induction l with
  | nil => intro n i; simp
  | cons a l ih =>
    intro n i
    rw [List.enumFrom_cons, List.filter_cons]
    by_cases h : n = i
    · subst h
      have : (n != n) = false := by simp
      rw [if_neg (by simp [this])]
      rw [enumFrom_filter_ne_of_lt l (n + 1) n (by omega)]
      simp [List.enumFrom_length]
    · have : (n != i) = true := by simp [bne_iff_ne, h]
      rw [if_pos this]
      have := ih (n + 1) i
      simp only [List.length_cons]
      omega

/-- Helper: with at least two pages, `deleteCurrentPage` leaves at least one
page. -/
theorem deleteCurrentPage_length_pos (p : Project) (i : ℕ)
    (h2 : 2 ≤ p.pages.length) :
    1 ≤ (deleteCurrentPage p i).1.pages.length := by
  unfold deleteCurrentPage
  rw [if_neg (by omega)]
  simp only [List.length_map]
  have hrw : p.pages.enum = List.enumFrom 0 p.pages := rfl
  rw [hrw]
  have := length_enumFrom_filter_ge p.pages 0 i
  omega

/-- Helper: one editor operation keeps the page list non-empty. -/
theorem applyOp_pages_ne_nil (s : Project × ℕ) (op : EditorOp)
    (h : s.1.pages ≠ []) : (applyOp s op).1.pages ≠ [] := by
  cases op with
  | addPage np => simp [applyOp, addNewPage]
  | deletePage =>
    show (deleteCurrentPage s.1 s.2).1.pages ≠ []
    by_cases hl : s.1.pages.length ≤ 1
    · unfold deleteCurrentPage
      rw [if_pos hl]
      exact h
    · have := deleteCurrentPage_length_pos s.1 s.2 (by omega)
      exact List.length_pos.mp (by omega)

/-- Claim C4: the page list of a project stays non-empty under every
sequence of add-page/delete-page operations — deleting the sole remaining
page is rejected as a no-op. -/
theorem claim_C4_nonempty_pages (s : Project × ℕ) (h : s.1.pages ≠ [])
    (ops : List EditorOp) : (runOps s ops).1.pages ≠ [] := by
  induction ops generalizing s with
  | nil => exact h
  | cons op ops ih =>
    show ((op :: ops).foldl applyOp s).1.pages ≠ []
    rw [List.foldl_cons]
    exact ih (applyOp s op) (applyOp_pages_ne_nil s op h)

/-- Claim C4 witness: a one-page project survives delete, add, delete,
delete with a non-empty page list. -/
theorem claim_C4_witness :
    (demoProject, 0).1.pages ≠ [] ∧
    (runOps (demoProject, 0)
      [.deletePage, .addPage demoPage, .deletePage, .deletePage]).1.pages ≠ [] :=
  ⟨by simp [demoProject], claim_C4_nonempty_pages (demoProject, 0) (by simp [demoProject]) _⟩

/-- Claim C10: deleting the current page of a project with at least two
pages yields exactly `min currentPageIndex (newCount - 1)` as the new index,
which is always in bounds of the shrunken page list. -/
theorem claim_C10_index_in_bounds (p : Project) (i : ℕ)
    (h2 : 2 ≤ p.pages.length) :
    (deleteCurrentPage p i).2 =
      min i ((deleteCurrentPage p i).1.pages.length - 1) ∧
    (deleteCurrentPage p i).2 < (deleteCurrentPage p i).1.pages.length := by
  have hpos := deleteCurrentPage_length_pos p i h2
  have h1 : (deleteCurrentPage p i).2 =
      min i ((deleteCurrentPage p i).1.pages.length - 1) := by
    unfold deleteCurrentPage
    rw [if_neg (by omega)]
  refine ⟨h1, ?_⟩
  rw [h1]
  refine lt_of_le_of_lt (min_le_right _ _) ?_
  omega

/-- Claim C10 witness: deleting page 0 of a two-page project leaves index 0,
in bounds of the one remaining page. -/
theorem claim_C10_witness :
    2 ≤ demoProject2.pages.length ∧
    (deleteCurrentPage demoProject2 0).2 =
      min 0 ((deleteCurrentPage demoProject2 0).1.pages.length - 1) ∧
    (deleteCurrentPage demoProject2 0).2 < (deleteCurrentPage demoProject2 0).1.pages.length :=
  ⟨by simp [demoProject2], claim_C10_index_in_bounds demoProject2 0 (by simp [demoProject2])⟩

/-- Claim C9: activating a page with no persisted graph (for any theme and
format) seeds the graph with exactly one welcome textbox — placeholder text
"Tap to edit text", centered on the canvas, filled with the theme's default
text color, wrap width 0.8 of the canvas width — and selects it. -/
theorem claim_C9_placeholder_seed (theme : Theme) (format : CanvasFormat) :
    ∃ c, initializeCanvas theme (canvasDimensions format).1
        (canvasDimensions format).2 none = .ok c ∧
      c.objects = [.textbox (welcomeTextbox theme c.width c.height)] ∧
      c.activeObject = some (.textbox (welcomeTextbox theme c.width c.height)) ∧
      (welcomeTextbox theme c.width c.height).text = "Tap to edit text" ∧
      (welcomeTextbox theme c.width c.height).left = c.width / 2 ∧
      (welcomeTextbox theme c.width c.height).top = c.height / 2 ∧
      (welcomeTextbox theme c.width c.height).fill = getTextColor theme ∧
      (welcomeTextbox theme c.width c.height).width = c.width * 0.8 := by
  cases format with
  | post =>
    refine ⟨{ width := 600, height := 600
              backgroundColor := getThemeBackground theme
              objects := [.textbox (welcomeTextbox theme 600 600)]
              activeObject := some (.textbox (welcomeTextbox theme 600 600)) },
            ?_, rfl, rfl, rfl, rfl, rfl, rfl, rfl⟩
    show initializeCanvas theme 1080 1080 none = _
    simp only [initializeCanvas, loadCanvasData, displaySize, jsOr, canvasDimensions]
    norm_num
  | story =>
    refine ⟨{ width := 675 / 2, height := 600
              backgroundColor := getThemeBackground theme
              objects := [.textbox (welcomeTextbox theme (675 / 2) 600)]
              activeObject := some (.textbox (welcomeTextbox theme (675 / 2) 600)) },
            ?_, rfl, rfl, rfl, rfl, rfl, rfl, rfl⟩
    show initializeCanvas theme 1080 1920 none = _
    simp only [initializeCanvas, loadCanvasData, displaySize, jsOr, canvasDimensions]
    norm_num

/-- Claim C7 counterexample: on the story-format display canvas
(337.5 × 600, as built by `initializeCanvas`), a 100×200 image gets scale
1.8, so its scaled height is 360 — more than 60% of the shorter canvas
dimension (0.6 × 337.5 = 202.5).  The image is *not* scaled to fit within
60% of the shorter canvas dimension. -/
theorem claim_C7_counterexample :
    displaySize 1080 1920 = (storyCanvas.width, storyCanvas.height) ∧
    (addedImage storyCanvas 100 200).scaleFactor = 9 / 5 ∧
    200 * (addedImage storyCanvas 100 200).scaleFactor = 360 ∧
    ¬ (200 * (addedImage storyCanvas 100 200).scaleFactor ≤
        0.6 * min storyCanvas.width storyCanvas.height) := by
  refine ⟨?_, ?_, ?_, ?_⟩ <;>
    simp only [displaySize, storyCanvas, addedImage, addImageScale, Prod.mk.injEq,
      min_def] <;>
    norm_num

/-- Claim C7 amended: on successful decode, `addImage` scales the image
uniformly so that it fits within 60% of each **corresponding** canvas
dimension (scaled width ≤ 0.6 × canvas width and scaled height ≤ 0.6 ×
canvas height — not within 60% of the shorter dimension), centers it on the
canvas, appends it to the graph and selects it. -/
theorem claim_C7_amended (canvas : FabricCanvasState) (iw ih : ℚ)
    (hcw : 0 < canvas.width) (hch : 0 < canvas.height)
    (hiw : 0 < iw) (hih : 0 < ih) :
    (addImage canvas (some (iw, ih))).2 = none ∧
    (addImage canvas (some (iw, ih))).1.objects =
      canvas.objects ++ [.image (addedImage canvas iw ih)] ∧
    (addImage canvas (some (iw, ih))).1.activeObject =
      some (.image (addedImage canvas iw ih)) ∧
    (addedImage canvas iw ih).left = canvas.width / 2 ∧
    (addedImage canvas iw ih).top = canvas.height / 2 ∧
    0 < (addedImage canvas iw ih).scaleFactor ∧
    iw * (addedImage canvas iw ih).scaleFactor ≤ 0.6 * canvas.width ∧
    ih * (addedImage canvas iw ih).scaleFactor ≤ 0.6 * canvas.height := by
  refine ⟨rfl, rfl, rfl, rfl, rfl, ?_, ?_, ?_⟩ <;>
    simp only [addedImage, addImageScale]
  · split_ifs with hA
    · exact div_pos (by positivity) hiw
    · exact div_pos (by positivity) hih
  · split_ifs with hA
    · rw [mul_div_assoc']
      rw [mul_comm iw (canvas.width * 0.6), mul_div_assoc]
      rw [div_self (ne_of_gt hiw), mul_one]
      linarith
    · push_neg at hA
      have key : iw * canvas.height ≤ canvas.width * ih :=
        (div_le_div_iff₀ hih hch).mp hA
      rw [mul_div_assoc']
      rw [div_le_iff₀ hih]
      nlinarith
  · split_ifs with hA
    · have key : canvas.width * ih < iw * canvas.height :=
        (div_lt_div_iff₀ hch hih).mp hA
      rw [mul_div_assoc']
      rw [div_le_iff₀ hiw]
      nlinarith
    · rw [mul_div_assoc']
      rw [mul_comm ih (canvas.height * 0.6), mul_div_assoc]
      rw [div_self (ne_of_gt hih), mul_one]
      linarith

/-- Claim C7 amended witness: a 100×200 image on the 600×600 post canvas. -/
theorem claim_C7_witness :
    (addImage postCanvas (some (100, 200))).2 = none ∧
    (addImage postCanvas (some (100, 200))).1.objects =
      postCanvas.objects ++ [.image (addedImage postCanvas 100 200)] ∧
    (addImage postCanvas (some (100, 200))).1.activeObject =
      some (.image (addedImage postCanvas 100 200)) ∧
    (addedImage postCanvas 100 200).left = postCanvas.width / 2 ∧
    (addedImage postCanvas 100 200).top = postCanvas.height / 2 ∧
    0 < (addedImage postCanvas 100 200).scaleFactor ∧
    100 * (addedImage postCanvas 100 200).scaleFactor ≤ 0.6 * postCanvas.width ∧
    200 * (addedImage postCanvas 100 200).scaleFactor ≤ 0.6 * postCanvas.height :=
  claim_C7_amended postCanvas 100 200 (by norm_num [postCanvas])
    (by norm_num [postCanvas]) (by norm_num) (by norm_num)

/-- Helper: inserting at the length of the left part of an append lands
between the two parts (JS `splice` at that position). -/
theorem insertIdx_length_append {α : Type} (pre ys : List α) (x : α) :
    (pre ++ ys).insertIdx pre.length x = pre ++ x :: ys := by
  induction pre with
  | nil => rfl
  | cons a pre ih => simpa using ih

/-- Helper: `moveObjectTo` with a target inside the right part of an append
and destination index `pre.length` splices the object between the parts. -/
theorem moveObjectTo_append {α : Type} [DecidableEq α] (pre rem : List α) (x : α)
    (hpre : x ∉ pre) :
    moveObjectTo (pre ++ rem) x pre.length = pre ++ x :: rem.erase x := by
  simp only [moveObjectTo]
  rw [List.erase_append_right _ hpre]
  have hmin : min pre.length (pre ++ rem.erase x).length = pre.length := by
    simp [List.length_append]
  rw [hmin]
  exact insertIdx_length_append pre (rem.erase x) x

/-- Helper: `moveObjectTo` with a target inside the left part of an append
and destination index `rem.length - 1` splices the object between the parts. -/
theorem moveObjectTo_to_end {α : Type} [DecidableEq α] (rem done : List α) (x : α)
    (hx : x ∈ rem) :
    moveObjectTo (rem ++ done) x (rem.length - 1) = rem.erase x ++ x :: done := by
  simp only [moveObjectTo]
  rw [List.erase_append_left _ hx]
  have hlen : (rem.erase x).length = rem.length - 1 := List.length_erase_of_mem hx
  have hmin : min (rem.length - 1) ((rem.erase x ++ done).length) = (rem.erase x).length := by
    simp only [List.length_append, hlen]
    omega
  rw [hmin]
  exact insertIdx_length_append (rem.erase x) done x

/-- Helper: on a duplicate-free list, erasing `x` and keeping the elements
outside `s` is the same as keeping the elements outside `x :: s`. -/
theorem erase_filter_not_mem_cons {α : Type} [DecidableEq α] (rem : List α) (x : α)
    (s : List α) (hrem : rem.Nodup) :
    (rem.erase x).filter (fun y => decide (y ∉ s)) =
      rem.filter (fun y => decide (y ∉ x :: s)) := by
  rw [hrem.erase_eq_filter, List.filter_filter]
  apply List.filter_congr
  intro y _
  by_cases h1 : y = x <;> by_cases h2 : y ∈ s <;> simp [h1, h2]

/-- Helper (invariant of `sendToBack`): after the already-moved selection
prefix `pre`, processing the remaining selection `s` against the remaining
stack `rem` stacks `s` right after `pre` and keeps the unselected elements
above, in order. -/
theorem sendToBack_go {α : Type} [DecidableEq α] (s : List α) :
    ∀ (pre rem : List α), s.Nodup → rem.Nodup →
      (∀ x ∈ s, x ∈ rem) → (∀ x ∈ s, x ∉ pre) →
      (List.enumFrom pre.length s).foldl
          (fun acc q => moveObjectTo acc q.2 q.1) (pre ++ rem)
        = (pre ++ s) ++ rem.filter (fun y => decide (y ∉ s)) := by
  induction s with
  | nil =>
    intro pre rem _ _ _ _
    simp
  | cons x s ih =>
    intro pre rem hs hrem hsub hpre
    rw [List.enumFrom_cons, List.foldl_cons]
    rw [moveObjectTo_append pre rem x (hpre x (List.mem_cons_self x s))]
    have hxs : x ∉ s := (List.nodup_cons.mp hs).1
    have hstep : pre ++ x :: rem.erase x = (pre ++ [x]) ++ rem.erase x := by simp
    rw [hstep]
    have hlen : pre.length + 1 = (pre ++ [x]).length := by simp
    rw [hlen]
    rw [ih (pre ++ [x]) (rem.erase x) (List.Nodup.of_cons hs) (hrem.erase x)
        (fun y hy => by
          have hne : y ≠ x := fun he => hxs (he ▸ hy)
          exact (List.mem_erase_of_ne hne).mpr (hsub y (List.mem_cons_of_mem x hy)))
        (fun y hy => by
          simp only [List.mem_append, List.mem_singleton, not_or]
          exact ⟨hpre y (List.mem_cons_of_mem x hy), fun he => hxs (he ▸ hy)⟩)]
    rw [erase_filter_not_mem_cons rem x s hrem]
    simp

/-- Helper (invariant of `bringToFront`): with already-moved selection
suffix `done` on top, processing the remaining selection `s` against the
remaining stack `rem` keeps the unselected elements at the bottom and stacks
`s` in reverse below `done`. -/
theorem bringToFront_go {α : Type} [DecidableEq α] (s : List α) :
    ∀ (rem done : List α) (M : ℕ), M + 1 = rem.length + done.length →
      s.Nodup → rem.Nodup → (∀ x ∈ s, x ∈ rem) →
      (List.enumFrom done.length s).foldl
          (fun acc q => moveObjectTo acc q.2 (M - q.1)) (rem ++ done)
        = rem.filter (fun y => decide (y ∉ s)) ++ (s.reverse ++ done) := by
  induction s with
  | nil =>
    intro rem done M _ _ _ _
    simp
  | cons x s ih =>
    intro rem done M hM hs hrem hsub
    rw [List.enumFrom_cons, List.foldl_cons]
    have hx : x ∈ rem := hsub x (List.mem_cons_self x s)
    have hxs : x ∉ s := (List.nodup_cons.mp hs).1
    have hrem1 : 1 ≤ rem.length := List.length_pos.mpr (List.ne_nil_of_mem hx)
    have hMk : M - done.length = rem.length - 1 := by omega
    rw [hMk, moveObjectTo_to_end rem done x hx]
    have herase := List.length_erase_of_mem hx
    have hlen : done.length + 1 = ((x :: done) : List α).length := rfl
    rw [hlen]
    rw [ih (rem.erase x) (x :: done) M (by simp only [List.length_cons, herase]; omega)
        (List.Nodup.of_cons hs) (hrem.erase x)
        (fun y hy => by
          have hne : y ≠ x := fun he => hxs (he ▸ hy)
          exact (List.mem_erase_of_ne hne).mpr (hsub y (List.mem_cons_of_mem x hy)))]
    rw [erase_filter_not_mem_cons rem x s hrem]
    simp

/-- Claim C5 counterexample: on the stack [0, 1, 2] with the multi-selection
[1, 2] (listed in their paint order: 1 before 2), to-front produces
[0, 2, 1] — the relative paint order of the moved elements is reversed, not
preserved. -/
theorem claim_C5_counterexample :
    ([0, 1, 2] : List ℕ).indexOf 1 < ([0, 1, 2] : List ℕ).indexOf 2 ∧
    bringToFront ([0, 1, 2] : List ℕ) [1, 2] = [0, 2, 1] ∧
    ¬ ((bringToFront ([0, 1, 2] : List ℕ) [1, 2]).indexOf 1 <
        (bringToFront ([0, 1, 2] : List ℕ) [1, 2]).indexOf 2) := by
  decide

/-- Claim C5 amended: for a duplicate-free stack and selection,
`sendToBack` places the moved elements consecutively at the bottom in
selection-list order (preserving their relative order when the selection is
listed in paint order), while `bringToFront` places them consecutively on
top in **reversed** selection-list order; the unselected elements keep
their relative order in both cases.  Uniform displacement does not hold in
general. -/
theorem claim_C5_amended {α : Type} [DecidableEq α] (l sel : List α)
    (hl : l.Nodup) (hsel : sel.Nodup) (hsub : ∀ x ∈ sel, x ∈ l) :
    sendToBack l sel = sel ++ l.filter (fun y => decide (y ∉ sel)) ∧
    bringToFront l sel = l.filter (fun y => decide (y ∉ sel)) ++ sel.reverse := by
  constructor
  · have h := sendToBack_go sel [] l hsel hl hsub (fun x _ => List.not_mem_nil x)
    simp only [List.nil_append] at h
    exact h
  · by_cases hnil : l = []
    · have hsel_nil : sel = [] := by
        cases sel with
        | nil => rfl
        | cons a s => exact absurd (hsub a (List.mem_cons_self a s)) (by simp [hnil])
      subst hnil
      subst hsel_nil
      rfl
    · have hpos : 0 < l.length := List.length_pos.mpr hnil
      have h := bringToFront_go sel l [] (l.length - 1) (by simp; omega) hsel hl hsub
      simp only [List.append_nil] at h
      exact h

/-- Claim C5 amended witness: stack [0, 1, 2], selection [1, 2]. -/
theorem claim_C5_witness :
    ([0, 1, 2] : List ℕ).Nodup ∧ ([1, 2] : List ℕ).Nodup ∧
    (∀ x ∈ ([1, 2] : List ℕ), x ∈ ([0, 1, 2] : List ℕ)) ∧
    sendToBack ([0, 1, 2] : List ℕ) [1, 2] =
      [1, 2] ++ ([0, 1, 2] : List ℕ).filter (fun y => decide (y ∉ ([1, 2] : List ℕ))) ∧
    bringToFront ([0, 1, 2] : List ℕ) [1, 2] =
      ([0, 1, 2] : List ℕ).filter (fun y => decide (y ∉ ([1, 2] : List ℕ))) ++
        ([1, 2] : List ℕ).reverse :=
  ⟨by decide, by decide, by decide,
   (claim_C5_amended [0, 1, 2] [1, 2] (by decide) (by decide) (by decide)).1,
   (claim_C5_amended [0, 1, 2] [1, 2] (by decide) (by decide) (by decide)).2⟩

/-- Helper: re-inserting an erased element at its original index restores
the list. -/
theorem insertIdx_indexOf_erase {α : Type} [DecidableEq α] (l : List α) (x : α)
    (hx : x ∈ l) : (l.erase x).insertIdx (l.indexOf x) x = l := by
  induction l with
  | nil => cases hx
  | cons a l ih =>
    by_cases h : a = x
    · subst h
      rw [List.erase_cons_head, List.indexOf_cons_self, List.insertIdx_zero]
    · have hbeq : ¬ ((a == x) = true) := by simp [h]
      rw [List.erase_cons_tail hbeq, List.indexOf_cons_ne _ h]
      have hx' : x ∈ l := by
        cases hx with
        | head => exact absurd rfl h
        | tail _ h2 => exact h2
      rw [Nat.succ_eq_add_one, List.insertIdx_succ_cons, ih hx']

/-- Helper: moving an object to its current index is a no-op. -/
theorem moveObjectTo_indexOf_self {α : Type} [DecidableEq α] (l : List α) (x : α)
    (hx : x ∈ l) : moveObjectTo l x (l.indexOf x) = l := by
  simp only [moveObjectTo]
  have h1 : l.indexOf x ≤ (l.erase x).length := by
    have h2 := List.indexOf_lt_length.mpr hx
    have h3 := List.length_erase_of_mem hx
    omega
  rw [min_eq_left h1]
  exact insertIdx_indexOf_erase l x hx

/-- Helper: any single move of an element of the stack keeps the stack a
permutation of itself — the operation is total and never drops or
duplicates elements. -/
theorem moveObjectTo_perm {α : Type} [DecidableEq α] (l : List α) (x : α) (i : ℕ)
    (hx : x ∈ l) : (moveObjectTo l x i).Perm l := by
  simp only [moveObjectTo]
  exact (List.perm_insertIdx x _ (min_le_right _ _)).trans
    (List.perm_cons_erase hx).symm

/-- Helper: one-step-forward on the topmost element clamps: the index
`Math.min(idx + 1, length - 1)` is the element's own index, so nothing
moves. -/
theorem bringForward_last {α : Type} [DecidableEq α] (l : List α) (x : α)
    (hx : x ∉ l) : bringForward (l ++ [x]) [x] = l ++ [x] := by
  have hmem : x ∈ l ++ [x] := by simp
  simp only [bringForward, List.foldl_cons, List.foldl_nil, if_pos hmem]
  have hidx : (l ++ [x]).indexOf x = l.length := by
    rw [List.indexOf_append_of_not_mem hx]
    simp
  have hlen : (l ++ [x]).length = l.length + 1 := by simp
  have hminEq : min ((l ++ [x]).indexOf x + 1) ((l ++ [x]).length - 1) =
      (l ++ [x]).indexOf x := by
    rw [hidx, hlen]
    omega
  rw [hminEq]
  exact moveObjectTo_indexOf_self _ x hmem

/-- Helper: one-step-backward on the bottommost element clamps: the index
`Math.max(idx - 1, 0)` is 0, the element's own index, so nothing moves. -/
theorem sendBackward_head {α : Type} [DecidableEq α] (l : List α) (x : α) :
    sendBackward (x :: l) [x] = x :: l := by
  have hmem : x ∈ x :: l := List.mem_cons_self x l
  simp only [sendBackward, List.foldl_cons, List.foldl_nil, if_pos hmem]
  rw [List.indexOf_cons_self]
  have h0 : (0 : ℕ) - 1 = 0 := rfl
  rw [h0]
  have := moveObjectTo_indexOf_self (x :: l) x hmem
  rwa [List.indexOf_cons_self] at this

/-- Claim C6: on the 3-element stack [0, 1, 2], to-back of the element at
index 2 yields paint order [2, 0, 1] and to-front of the element at index 0
yields [1, 2, 0]; one-step-forward on the topmost element and
one-step-backward on the bottommost element clamp at the boundary (no-ops),
and every single-element move is total and yields a permutation of the
stack — reorder operations never throw. -/
theorem claim_C6_paint_order_clamp :
    sendToBack ([0, 1, 2] : List ℕ) (getSelectedObjects (ActiveSelection.single 2)) =
      [2, 0, 1] ∧
    bringToFront ([0, 1, 2] : List ℕ) (getSelectedObjects (ActiveSelection.single 0)) =
      [1, 2, 0] ∧
    (∀ (l : List ℕ) (x : ℕ), x ∉ l → bringForward (l ++ [x]) [x] = l ++ [x]) ∧
    (∀ (l : List ℕ) (x : ℕ), sendBackward (x :: l) [x] = x :: l) ∧
    (∀ (l : List ℕ) (x i : ℕ), x ∈ l → (moveObjectTo l x i).Perm l) :=
  ⟨by decide, by decide,
   fun l x h => bringForward_last l x h,
   fun l x => sendBackward_head l x,
   fun l x i h => moveObjectTo_perm l x i h⟩

/-- Claim C6 witness: concrete boundary moves. -/
theorem claim_C6_witness :
    ((3 : ℕ) ∉ ([1, 2] : List ℕ) ∧
      bringForward (([1, 2] : List ℕ) ++ [3]) [3] = [1, 2] ++ [3]) ∧
    ((5 : ℕ) ∈ ([4, 5] : List ℕ) ∧
      (moveObjectTo ([4, 5] : List ℕ) 5 0).Perm [4, 5]) :=
  ⟨⟨by decide, claim_C6_paint_order_clamp.2.2.1 [1, 2] 3 (by decide)⟩,
   ⟨by decide, claim_C6_paint_order_clamp.2.2.2.2 [4, 5] 5 0 (by decide)⟩⟩

/-- Helper: every lifecycle event preserves well-formedness: `activate`
always mounts a brand-new generation, so the active canvas is never a
disposed one. -/
theorem wf_stepRenderer (w : RendererWorld) (e : RendererEvent)
    (h : RendererWF w) : RendererWF (stepRenderer w e) := by
  cases e with
  | activate =>
    refine ⟨?_, ?_, ?_⟩
    · intro a ha
      simp only [stepRenderer] at ha ⊢
      rw [Option.some_inj] at ha
      omega
    · intro a ha
      simp only [stepRenderer] at ha ⊢
      rw [Option.some_inj] at ha
      subst ha
      exact h.fresh_clean w.next le_rfl
    · intro i hi
      simp only [stepRenderer] at hi ⊢
      exact h.fresh_clean i (by omega)
  | dispose =>
    simp only [stepRenderer]
    cases hw : w.active with
    | none => exact h
    | some a =>
      have halt := h.active_lt a hw
      show RendererWF
        { w with disposed := fun i => if i = a then true else w.disposed i
                 active := none }
      refine ⟨?_, ?_, ?_⟩
      · intro b hb
        exact absurd hb (by simp)
      · intro b hb
        exact absurd hb (by simp)
      · intro i hi
        have hi' : w.next ≤ i := hi
        show (if i = a then true else w.disposed i) = false
        rw [if_neg (by omega)]
        exact h.fresh_clean i hi'
  | issueAddImage img =>
    simp only [stepRenderer]
    cases hw : w.active with
    | none => exact h
    | some a =>
      show RendererWF
        { graphObjects := w.graphObjects, disposed := w.disposed
          active := some a, next := w.next, pending := ⟨a, img⟩ :: w.pending }
      refine ⟨?_, ?_, h.fresh_clean⟩
      · intro b hb
        rw [Option.some_inj] at hb
        subst hb
        exact h.active_lt a hw
      · intro b hb
        rw [Option.some_inj] at hb
        subst hb
        exact h.active_live a hw
  | completeDecode p =>
    simp only [stepRenderer]
    by_cases hp : p ∈ w.pending
    · rw [if_pos hp]
      exact ⟨h.active_lt, h.active_live, h.fresh_clean⟩
    · rw [if_neg hp]
      exact h

/-- Helper: well-formedness is preserved along any event interleaving. -/
theorem wf_runRenderer (es : List RendererEvent) :
    ∀ (w : RendererWorld), RendererWF w → RendererWF (runRenderer w es) := by
  induction es with
  | nil => intro w h; exact h
  | cons e es ih =>
    intro w h
    show RendererWF ((e :: es).foldl stepRenderer w)
    rw [List.foldl_cons]
    exact ih (stepRenderer w e) (wf_stepRenderer w e h)

/-- Helper: once a generation is disposed it stays disposed forever —
generations are never resurrected. -/
theorem disposed_stepRenderer (w : RendererWorld) (e : RendererEvent) (t : ℕ)
    (h : w.disposed t = true) : (stepRenderer w e).disposed t = true := by
  cases e with
  | activate => exact h
  | dispose =>
    simp only [stepRenderer]
    cases hw : w.active with
    | none => exact h
    | some a =>
      simp only
      split
      · rfl
      · exact h
  | issueAddImage img =>
    simp only [stepRenderer]
    cases hw : w.active with
    | none => exact h
    | some a => exact h
  | completeDecode p =>
    simp only [stepRenderer]
    by_cases hp : p ∈ w.pending
    · rw [if_pos hp]
      exact h
    · rw [if_neg hp]
      exact h

/-- Helper: disposedness persists along any event interleaving. -/
theorem disposed_runRenderer (es : List RendererEvent) :
    ∀ (w : RendererWorld) (t : ℕ), w.disposed t = true →
      (runRenderer w es).disposed t = true := by
  induction es with
  | nil => intro w t h; exact h
  | cons e es ih =>
    intro w t h
    show ((e :: es).foldl stepRenderer w).disposed t = true
    rw [List.foldl_cons]
    exact ih (stepRenderer w e) t (disposed_stepRenderer w e t h)

/-- Claim C1: once a canvas generation `t` has been disposed, then after
**any** further interleaving of lifecycle events (new activations, more
decodes, more disposals), completing a decode whose closure captured
generation `t` leaves the currently active graph untouched — the stale
insertion never reaches the newly active graph. -/
theorem claim_C1_stale_decode_discard (w : RendererWorld) (t : ℕ)
    (img : FabricObject) (hwf : RendererWF w) (hdisp : w.disposed t = true)
    (es : List RendererEvent) (a : ℕ)
    (ha : (runRenderer w es).active = some a) :
    (stepRenderer (runRenderer w es)
        (.completeDecode ⟨t, img⟩)).graphObjects a
      = (runRenderer w es).graphObjects a := by
  have hwf' := wf_runRenderer es w hwf
  have hdisp' := disposed_runRenderer es w t hdisp
  have hlive := hwf'.active_live a ha
  have hat : a ≠ t := by
    intro he
    rw [he, hdisp'] at hlive
    exact Bool.noConfusion hlive
  simp only [stepRenderer]
  by_cases hp : (⟨t, img⟩ : PendingDecode) ∈ (runRenderer w es).pending
  · rw [if_pos hp]
    simp only
    rw [if_neg hat]
  · rw [if_neg hp]

/-- Claim C1 witness: in the concrete world `w0` — activate generation 0,
issue an image decode against it, dispose it — activating a fresh canvas
(generation 1) and then letting the stale decode complete leaves the new
canvas's object list unchanged. -/
theorem claim_C1_witness :
    RendererWF w0 ∧ w0.disposed 0 = true ∧
    (runRenderer w0 [.activate]).active = some 1 ∧
    (stepRenderer (runRenderer w0 [.activate])
        (.completeDecode ⟨0, demoImg⟩)).graphObjects 1
      = (runRenderer w0 [.activate]).graphObjects 1 := by
  have hwf : RendererWF w0 := by
    refine ⟨?_, ?_, ?_⟩
    · intro a ha
      exact absurd ha (by simp [w0])
    · intro a ha
      exact absurd ha (by simp [w0])
    · intro i hi
      have hi' : 1 ≤ i := hi
      show (if i = 0 then true else false) = false
      rw [if_neg (by omega)]
  refine ⟨hwf, rfl, rfl, ?_⟩
  exact claim_C1_stale_decode_discard w0 0 demoImg hwf rfl [.activate] 1 rfl
